import Mathlib

/-!
Verification of the physrisk inventory module (`src/physrisk/data/inventory.py`).

The embedding represents Python byte strings as `List Nat` (each element below 256),
Python `str` as Lean `String`, machine-independent Python integers as `Nat`/`Int`,
and raised exceptions as `Except String` / `Option` error values.
-/

namespace Physrisk

/-! ## Byte and 32-bit word helpers -/

/-- `2 ^ 32`, the modulus for 32-bit word arithmetic. -/
def M32 : Nat := 4294967296

/-- Left rotation of a 32-bit word (value below `M32`). -/
def rotl (k x : Nat) : Nat := ((x <<< k) + (x >>> (32 - k))) % M32

/-- Big-endian rendering of `x` in `n` bytes (`int.to_bytes(n, "big")`). -/
def bytesBE (n x : Nat) : List Nat :=
  (List.range n).map fun i => (x >>> (8 * (n - 1 - i))) % 256

/-- `int.from_bytes(bs, "big")`: interpret bytes as a big-endian unsigned integer. -/
def fromBytesBE (bs : List Nat) : Nat := bs.foldl (fun acc b => acc * 256 + b) 0

/-! ## UTF-8 encoding (`str.encode("utf-8")`, per RFC 3629) -/

/-- UTF-8 encoding of one Unicode code point. -/
def utf8EncodeChar (c : Char) : List Nat :=
  let n := c.toNat
  if n < 128 then [n]
  else if n < 2048 then [192 + n / 64, 128 + n % 64]
  else if n < 65536 then [224 + n / 4096, 128 + n / 64 % 64, 128 + n % 64]
  else [240 + n / 262144, 128 + n / 4096 % 64, 128 + n / 64 % 64, 128 + n % 64]

/-- UTF-8 byte sequence of a string. -/
def utf8Bytes (s : String) : List Nat := (s.data.map utf8EncodeChar).flatten

/-! ## SHA-1 (FIPS 180-4, the semantics of `hashlib.sha1`) -/

/-- SHA-1 round constants. -/
def sha1K (t : Nat) : Nat :=
  if t < 20 then 0x5A827999 else if t < 40 then 0x6ED9EBA1
  else if t < 60 then 0x8F1BBCDC else 0xCA62C1D6

/-- SHA-1 round functions (choose / parity / majority / parity). -/
def sha1F (t b c d : Nat) : Nat :=
  if t < 20 then (b &&& c) ||| ((b ^^^ 0xFFFFFFFF) &&& d)
  else if t < 40 then b ^^^ c ^^^ d
  else if t < 60 then (b &&& c) ||| (b &&& d) ||| (c &&& d)
  else b ^^^ c ^^^ d

/-- The 16 big-endian 32-bit words of one 64-byte block. -/
def blockWords (block : List Nat) : List Nat :=
  (List.range 16).map fun i => fromBytesBE ((block.drop (4 * i)).take 4)

/-- Message-schedule expansion from 16 to 80 words. -/
def sha1Schedule (w16 : List Nat) : List Nat :=
  (List.range 64).foldl
    (fun w _ =>
      let n := w.length
      w ++ [rotl 1 (w.getD (n - 3) 0 ^^^ w.getD (n - 8) 0 ^^^
                    w.getD (n - 14) 0 ^^^ w.getD (n - 16) 0)])
    w16

/-- The five 32-bit working variables of SHA-1. -/
abbrev Sha1State := Nat × Nat × Nat × Nat × Nat

/-- One SHA-1 round: consume round index `t` and schedule word `wt`. -/
def sha1Round (st : Sha1State) (tw : Nat × Nat) : Sha1State :=
  let (a, b, c, d, e) := st
  let (t, wt) := tw
  let temp := (rotl 5 a + sha1F t b c d + e + sha1K t + wt) % M32
  (temp, a, rotl 30 b, c, d)

/-- Compression of one 64-byte block into the running hash state. -/
def sha1Compress (h : Sha1State) (block : List Nat) : Sha1State :=
  let w := sha1Schedule (blockWords block)
  let r := ((List.range 80).zip w).foldl sha1Round h
  ((h.1 + r.1) % M32, (h.2.1 + r.2.1) % M32, (h.2.2.1 + r.2.2.1) % M32,
   (h.2.2.2.1 + r.2.2.2.1) % M32, (h.2.2.2.2 + r.2.2.2.2) % M32)

/-- SHA-1 padding: append `0x80`, zero bytes up to 56 mod 64, then the
64-bit big-endian bit length. -/
def sha1Pad (msg : List Nat) : List Nat :=
  msg ++ [128] ++ List.replicate ((119 - msg.length % 64) % 64) 0 ++ bytesBE 8 (8 * msg.length)

/-- SHA-1 digest (20 bytes) of a byte sequence. -/
def sha1 (msg : List Nat) : List Nat :=
  let padded := sha1Pad msg
  let blocks := (List.range (padded.length / 64)).map fun i => (padded.drop (64 * i)).take 64
  let h := blocks.foldl sha1Compress (0x67452301, 0xEFCDAB89, 0x98BADCFE, 0x10325476, 0xC3D2E1F0)
  bytesBE 4 h.1 ++ bytesBE 4 h.2.1 ++ bytesBE 4 h.2.2.1 ++
    bytesBE 4 h.2.2.2.1 ++ bytesBE 4 h.2.2.2.2

/-! ## Base-36 encoding and the derived key (inventory.py lines 516-539) -/

/-- The default alphabet of `base36encode`. -/
def alphabet36 : List Char := "0123456789abcdefghijklmnopqrstuvwxyz".data

/-- The `while number != 0` loop of `base36encode` (lines 535-537):
`number, i = divmod(number, 36); base36 = alphabet[i] + base36`,
so digits accumulate most significant first. -/
def base36loop (number : Nat) : List Char :=
  if h : number = 0 then []
  else base36loop (number / 36) ++ [alphabet36.getD (number % 36) '0']
decreasing_by exact Nat.div_lt_self (Nat.pos_of_ne_zero h) (by norm_num)

/-- `base36encode` (lines 522-539) on a nonnegative integer; the dynamic-type and
negativity guards are modelled separately in `base36encodeDyn`. The early return
at line 533 handles `0 <= number < 36`. -/
def base36encode (number : Nat) : String :=
  if number < 36 then String.singleton (alphabet36.getD number '0')
  else ⟨base36loop number⟩

/-- `alphanumeric` (lines 516-519): SHA-1 of the UTF-8 encoding, read as a
big-endian unsigned integer, encoded in base 36. -/
def alphanumeric (text : String) : String :=
  base36encode (fromBytesBE (sha1 (utf8Bytes text)))

/-- The `[0:6]` slice applied to `alphanumeric` at `to_resources` line 497. -/
def derivedKey (text : String) : String := ⟨(alphanumeric text).data.take 6⟩

/-- A Python value reaching `base36encode`: an arbitrary-precision int or a
non-int (for the `isinstance` guard). -/
inductive PyVal where
  | int (n : Int)
  | nonInt
deriving DecidableEq

/-- `base36encode` with its dynamic guards (lines 524-530): the two `TypeError`
branches are modelled as `Except.error` with the raised messages. -/
def base36encodeDyn : PyVal → Except String String
  | .nonInt => .error "number must be an integer"
  | .int n => if n < 0 then .error "number must be positive" else .ok (base36encode n.toNat)

/-! ## Spec-side key derivation (spec section 4.1), for comparison with the code -/

/-- Base-36 digit sequence of `n`, most significant digit first (empty for `0`). -/
def specBase36Digits (n : Nat) : List Nat :=
  if h : n = 0 then []
  else specBase36Digits (n / 36) ++ [n % 36]
decreasing_by exact Nat.div_lt_self (Nat.pos_of_ne_zero h) (by norm_num)

/-- Modelled from the spec's words (section 4.1): re-encode the integer in base 36
with digits 0-9 then a-z, most significant digit first, unpadded; `0` encodes
as the single digit `"0"`. -/
def specBase36 (n : Nat) : String :=
  if n = 0 then "0"
  else ⟨(specBase36Digits n).map fun d => alphabet36.getD d '0'⟩

/-- Modelled from the spec's words (section 4.1): SHA-1 of the UTF-8 encoding,
big-endian unsigned integer, base 36, first 6 characters (all of it if shorter). -/
def specDerive (s : String) : String :=
  ⟨(specBase36 (fromBytesBE (sha1 (utf8Bytes s)))).data.take 6⟩

/-! ## `str.format` for simple named replacement fields

The catalog's templates use fields of the form `name` or `name:0<width>d`
(zero-padded decimal). Opening and closing braces are written via `Char.ofNat`. -/

/-- The opening brace character. -/
def lbrace : Char := Char.ofNat 123

/-- The closing brace character. -/
def rbrace : Char := Char.ofNat 125

/-- A keyword value supplied to `str.format`. -/
inductive FmtVal where
  | s (v : String)
  | i (n : Nat)
deriving DecidableEq

/-- Python `str(n)` for a nonnegative integer: decimal digits, most significant
first (`"0"` for zero). -/
def decRender (n : Nat) : List Char := Nat.toDigits 10 n

/-- Numeric value of a list of decimal digit characters. -/
def digitsToNat (cs : List Char) : Nat := cs.foldl (fun acc c => acc * 10 + (c.toNat - 48)) 0

/-- Interpret a format spec of the form `0<width>d` (zero-padded decimal), the only
form the catalog's templates use; `none` models Python raising on other specs. -/
def renderSpec (v : FmtVal) (spec : List Char) : Option (List Char) :=
  match v with
  | .s _ => none
  | .i n =>
    match spec with
    | '0' :: rest =>
      if rest.getLast? = some 'd' ∧ rest.dropLast.all (fun c => 48 ≤ c.toNat && c.toNat ≤ 57) then
        let width := digitsToNat rest.dropLast
        some (List.replicate (width - (decRender n).length) '0' ++ decRender n)
      else none
    | _ => none

/-- Render one replacement field `name` or `name:spec` against the keyword environment;
`none` models Python raising (`KeyError` or an unsupported spec). -/
def renderField (env : String → Option FmtVal) (field : List Char) : Option (List Char) :=
  let name := field.takeWhile (fun c => c ≠ ':')
  match env ⟨name⟩ with
  | none => none
  | some v =>
    if field.any (fun c => c = ':') then
      renderSpec v ((field.dropWhile (fun c => c ≠ ':')).drop 1)
    else
      match v with
      | .s str => some str.data
      | .i n => some (decRender n)

/-- One step of the `str.format` scan. The state is `none` after a failure, otherwise
the output so far together with the replacement field currently being read (if any). -/
def formatStep (env : String → Option FmtVal) :
    Option (List Char × Option (List Char)) → Char → Option (List Char × Option (List Char))
  | none, _ => none
  | some (out, none), c =>
    if c = lbrace then some (out, some [])
    else some (out ++ [c], none)
  | some (out, some f), c =>
    if c = rbrace then
      match renderField env f with
      | none => none
      | some r => some (out ++ r, none)
    else some (out, some (f ++ [c]))

/-- `template.format(**env)` for templates built from literal text and simple
`name` / `name:spec` replacement fields. -/
def formatString (template : String) (env : String → Option FmtVal) : Option String :=
  match template.data.foldl (formatStep env) (some ([], none)) with
  | some (out, none) => some ⟨out⟩
  | _ => none

/-- A replacement field in braces, as literal template text. -/
def fieldRef (name : String) : String := ⟨lbrace :: name.data ++ [rbrace]⟩

/-! ## Data model

`HazardResource` and `Period` are imported by inventory.py from
`physrisk.api.v1.hazard_data`, which is not part of this repository snapshot;
their shapes are modelled from the spec (section 3) and from their uses in
inventory.py. -/

/-- Modelled from the spec (section 3, glossary): a `Period` is a (year, derived-key)
pair; field names follow the source's uses `period.year` and `period.map_id`. -/
structure Period where
  year : Nat
  map_id : String
deriving DecidableEq

/-- Modelled from the spec (section 3, ScenarioSpec): scenario id, ordered years, and
optionally a pre-recorded list of periods (`none` when the scenario declares none). -/
structure ScenarioSpec where
  id : String
  years : List Nat
  periods : Option (List Period)
deriving DecidableEq

/-- Modelled from the spec (section 3): the optional map specification carried by a
resource: a colormap (name retained), its own array-name template, optional source tag. -/
structure MapInfo where
  colormap : String
  array_name : String
  source : Option String
deriving DecidableEq

/-- Modelled from the spec (section 3, ResourceTemplate/Resource): hazard type, path,
model id, named parameters with ordered allowed values, display name, description,
array-name template, optional map specification, units, scenarios. -/
structure HazardResource where
  type : String
  path : String
  id : String
  params : List (String × List String)
  display_name : String
  description : String
  array_name : String
  map : Option MapInfo
  units : String
  scenarios : List ScenarioSpec
deriving DecidableEq

/-- Modelled from the spec (section 3): the composite key is the concatenation of the
hierarchical path and the model id (`resource.key()` in the missing module). -/
def HazardResource.key (r : HazardResource) : String := r.path ++ r.id

/-- Replace every occurrence of the braced placeholder for `name` with `value`. -/
def substPlaceholder (name value s : String) : String :=
  s.replace (fieldRef name) value

/-- Modelled from the spec (section 4.2): apply one parameter combination, substituting
each placeholder in the model id, display name, description and array-name templates. -/
def applyParams (subst : List (String × String)) (r : HazardResource) : HazardResource :=
  subst.foldl
    (fun r p =>
      { r with
        id := substPlaceholder p.1 p.2 r.id
        display_name := substPlaceholder p.1 p.2 r.display_name
        description := substPlaceholder p.1 p.2 r.description
        array_name := substPlaceholder p.1 p.2 r.array_name
        map := r.map.map fun m => { m with array_name := substPlaceholder p.1 p.2 m.array_name } })
    r

/-- Modelled from the spec (section 4.2): all parameter combinations, in declaration
order with later-declared parameters varying fastest. -/
def paramCombinations : List (String × List String) → List (List (String × String))
  | [] => [[]]
  | (name, vals) :: rest =>
    (vals.map fun v => (paramCombinations rest).map fun c => (name, v) :: c).flatten

/-- Modelled from the spec (section 4.2): `model.expand()` produces one resource per
element of the cross-product of the declared parameter value sets; the identity
expansion when no parameters are declared. -/
def HazardResource.expand (r : HazardResource) : List HazardResource :=
  (paramCombinations r.params).map fun subst => applyParams subst r

/-! ## Period resolution (`EmbeddedInventory.to_resources`, lines 483-509) -/

/-- The keyword environment of the `format` call at lines 494-496:
`scenario=scenario.id, year=year, id=model.id, return_period=1000`. -/
def formatEnv (scenId : String) (year : Nat) (modelId : String) : String → Option FmtVal :=
  fun name =>
    if name = "scenario" then some (.s scenId)
    else if name = "year" then some (.i year)
    else if name = "id" then some (.s modelId)
    else if name = "return_period" then some (.i 1000)
    else none

/-- Lines 492-499: the per-year map id. When the model has a map specification with a
non-empty array-name template, render it and hash; otherwise the empty string.
`none` models `str.format` raising. -/
def computeMapId (model : HazardResource) (scenId : String) (year : Nat) : Option String :=
  match model.map with
  | some m =>
    if m.array_name ≠ "" then
      (formatString m.array_name (formatEnv scenId year model.id)).map derivedKey
    else some ""
  | none => some ""

/-- The `for year in scenario.years` loop of lines 491-500, building the fresh period
list in year order; `none` models `str.format` raising for some year. -/
def computePeriods (model : HazardResource) (scenId : String) : List Nat → Option (List Period)
  | [] => some []
  | year :: rest =>
    match computeMapId model scenId year, computePeriods model scenId rest with
    | some i, some ps => some (⟨year, i⟩ :: ps)
    | _, _ => none

/-- The message raised at lines 505-507. -/
def mismatchMsg (computed expected : String) : String :=
  "validation error: hash " ++ computed ++ " different to specified hash " ++ expected

/-- Lines 503-507: compare the freshly computed periods against the recorded ones
position by position (`zip` truncates to the shorter list), failing on the first
mismatching pair. -/
def checkPeriods : List Period → List Period → Except String Unit
  | _, [] => .ok ()
  | [], _ :: _ => .ok ()
  | p :: ps, t :: ts =>
    if p.map_id ≠ t.map_id then .error (mismatchMsg p.map_id t.map_id)
    else checkPeriods ps ts

/-- Lines 488-507 for one scenario: save the pre-recorded periods, recompute the period
list (one entry per declared year), and reconcile when pre-recorded periods exist. -/
def resolveScenarioSpec (model : HazardResource) (scen : ScenarioSpec) :
    Except String ScenarioSpec :=
  match computePeriods model scen.id scen.years with
  | none => .error "KeyError"
  | some computed =>
    match scen.periods with
    | none => .ok { scen with periods := some computed }
    | some testPeriods =>
      match checkPeriods computed testPeriods with
      | .ok _ => .ok { scen with periods := some computed }
      | .error e => .error e

/-- The `for scenario in model.scenarios` loop of line 488: resolve scenarios in
order, propagating the first raised error. -/
def resolveScenarios (model : HazardResource) : List ScenarioSpec → Except String (List ScenarioSpec)
  | [] => .ok []
  | s :: rest =>
    match resolveScenarioSpec model s with
    | .error e => .error e
    | .ok s' =>
      match resolveScenarios model rest with
      | .error e => .error e
      | .ok rest' => .ok (s' :: rest')

/-- Lines 487-507 for one expanded model: resolve all of its scenarios. -/
def resolveResource (model : HazardResource) : Except String HazardResource :=
  match resolveScenarios model model.scenarios with
  | .error e => .error e
  | .ok scens => .ok { model with scenarios := scens }

/-- The `for model in expanded_models` loop of line 487. -/
def resolveAll : List HazardResource → Except String (List HazardResource)
  | [] => .ok []
  | m :: rest =>
    match resolveResource m with
    | .error e => .error e
    | .ok m' =>
      match resolveAll rest with
      | .error e => .error e
      | .ok rest' => .ok (m' :: rest')

/-- `EmbeddedInventory.to_resources` (lines 483-509): expand every template, then
resolve and reconcile periods, raising on the first failure. -/
def toResources (models : List HazardResource) : Except String (List HazardResource) :=
  resolveAll ((models.map HazardResource.expand).flatten)

/-! ## The inventory index (`Inventory.__init__`, lines 44-57) -/

/-- Python `dict` assignment `d[k] = v`: replace in place when the key is present,
append otherwise. -/
def dictSet {K V : Type} [DecidableEq K] (d : List (K × V)) (k : K) (v : V) : List (K × V) :=
  if d.any (fun p => decide (p.1 = k)) then
    d.map fun p => if p.1 = k then (k, v) else p
  else d ++ [(k, v)]

/-- Python `d.get(k)`: the value under `k`, `none` when absent. -/
def dictGet? {K V : Type} [DecidableEq K] (d : List (K × V)) (k : K) : Option V :=
  (d.find? fun p => decide (p.1 = k)).map (fun p => p.2)

/-- `Inventory.__init__` (lines 44-57): the two lookup structures, insertion-ordered. -/
structure Inventory where
  resources : List (String × HazardResource)
  resources_by_type_id : List ((String × String) × List HazardResource)
deriving DecidableEq

/-- The body of the `for resource in hazard_resources` loop (lines 55-57). -/
def inventoryStep (inv : Inventory) (r : HazardResource) : Inventory :=
  { resources := dictSet inv.resources r.key r
    resources_by_type_id :=
      dictSet inv.resources_by_type_id (r.type, r.id)
        ((dictGet? inv.resources_by_type_id (r.type, r.id)).getD [] ++ [r]) }

/-- `Inventory.__init__`: fold the loop body over the resource sequence. -/
def Inventory.build (hazard_resources : List HazardResource) : Inventory :=
  hazard_resources.foldl inventoryStep ⟨[], []⟩

/-- The `defaultdict` read of `resources_by_type_id`: the list for a (type, id)
pair, empty when the pair is absent. -/
def Inventory.byTypeId (inv : Inventory) (p : String × String) : List HazardResource :=
  (dictGet? inv.resources_by_type_id p).getD []

/-- Lookup by composite key in `resources`. -/
def Inventory.byKey (inv : Inventory) (k : String) : Option HazardResource :=
  dictGet? inv.resources k

/-! ## Properties of period resolution -/

/-- The freshly computed period list of a scenario: one entry per declared year,
in declared order. -/
def freshPeriods (model : HazardResource) (scen : ScenarioSpec) : List Period :=
  scen.years.map fun y => Period.mk y ((computeMapId model scen.id y).getD "")

/-- The mapless test resource used by several witnesses. -/
def maplessModel : HazardResource :=
  { type := "T", path := "p/", id := "m", params := [], display_name := "",
    description := "", array_name := "", map := none, units := "",
    scenarios := [] }

/-- A scenario with stale pre-recorded periods (matching keys, different years). -/
def staleScen : ScenarioSpec :=
  { id := "ssp585", years := [2030, 2040], periods := some [⟨1999, ""⟩] }

/-- The resolved form of `staleScen` under `maplessModel`. -/
def staleScenResolved : ScenarioSpec :=
  { id := "ssp585", years := [2030, 2040], periods := some [⟨2030, ""⟩, ⟨2040, ""⟩] }

/-- The test resource with a map specification carrying an empty template. -/
def emptyTemplateModel : HazardResource :=
  { type := "T", path := "p/", id := "m", params := [], display_name := "",
    description := "", array_name := "",
    map := some { colormap := "flare", array_name := "", source := none },
    units := "", scenarios := [] }

/-- The one-year scenario used by the C8 witness. -/
def emptyKeyScen : ScenarioSpec := { id := "rcp8p5", years := [2030], periods := none }

/-- The resolved form of `emptyKeyScen` under `emptyTemplateModel`. -/
def emptyKeyScenResolved : ScenarioSpec :=
  { id := "rcp8p5", years := [2030], periods := some [⟨2030, ""⟩] }

/-- The riverine-inundation map array-name template of the WATCH model
(inventory.py line 177). -/
def inunriverTemplate : String :=
  "inunriver_" ++ fieldRef "scenario" ++ "_" ++ fieldRef "id" ++ "_" ++
    fieldRef "year" ++ "_rp" ++ fieldRef "return_period:05d"

/-- The concrete WATCH test resource for the C2 witness. -/
def watchModel : HazardResource :=
  { type := "RiverineInundation", path := "inundation/wri/v2", id := "000000000WATCH",
    params := [], display_name := "WRI/Baseline", description := "",
    array_name := "x",
    map := some { colormap := "flare", array_name := inunriverTemplate,
                  source := some "mapbox" },
    units := "metres", scenarios := [] }

/-- The unresolved historical scenario of the WATCH test resource. -/
def watchScen : ScenarioSpec := { id := "historical", years := [1980], periods := none }

/-- The resolved historical scenario of the WATCH test resource. -/
def watchResolvedScen : ScenarioSpec :=
  { id := "historical", years := [1980],
    periods := some [⟨1980,
      derivedKey "inunriver_historical_000000000WATCH_1980_rp01000"⟩] }

/-- The first position at which computed and recorded periods disagree, as the
pair (computed key, recorded key). -/
def firstMismatch (computed test : List Period) : Option (String × String) :=
  ((computed.zip test).find? fun pr => decide (pr.1.map_id ≠ pr.2.map_id)).map
    fun pr => (pr.1.map_id, pr.2.map_id)

/-- The scenario with a matching pre-recorded period used by the C3 witness. -/
def matchingScen : ScenarioSpec :=
  { id := "historical", years := [1980], periods := some [⟨1980, ""⟩] }

/-- A catalog entry whose composite key collides with `dupB`. -/
def dupA : HazardResource :=
  { type := "RiverineInundation", path := "inundation/wri/v2", id := "000000000WATCH",
    params := [], display_name := "first", description := "", array_name := "",
    map := none, units := "metres", scenarios := [] }

/-- A distinct resource sharing `dupA`'s path and model id. -/
def dupB : HazardResource := { dupA with display_name := "second" }

/-- A lookup fixture: first provider of the chronic-heat model. -/
def lkA : HazardResource :=
  { type := "ChronicHeat", path := "chronic_heat/osc/v1", id := "days", params := [],
    display_name := "A", description := "", array_name := "", map := none, units := "",
    scenarios := [] }

/-- A second provider of the same (type, id) pair under a different path. -/
def lkB : HazardResource := { lkA with path := "chronic_heat/osc/v2", display_name := "B" }

/-- A resource with a different (type, id) pair. -/
def lkC : HazardResource :=
  { lkA with type := "RiverineInundation", id := "watch", display_name := "C" }

/-! ## Properties of base-36 encoding -/

lemma base36loop_eq_digits (n : Nat) :
    base36loop n = (specBase36Digits n).map fun d => alphabet36.getD d '0' := by
  induction n using Nat.strong_induction_on with
  | _ n ih =>
    rw [base36loop, specBase36Digits]
    by_cases h : n = 0
    · simp [h]
    · rw [dif_neg h, dif_neg h, List.map_append,
        ih (n / 36) (Nat.div_lt_self (Nat.pos_of_ne_zero h) (by norm_num))]
      simp

lemma base36encode_eq_specBase36 (n : Nat) : base36encode n = specBase36 n := by
  unfold base36encode specBase36
  by_cases h0 : n = 0
  · subst h0; decide
  · by_cases h36 : n < 36
    · rw [if_pos h36, if_neg h0, specBase36Digits, dif_neg h0,
        Nat.div_eq_of_lt h36, Nat.mod_eq_of_lt h36]
      rw [specBase36Digits, dif_pos rfl]
      rfl
    · rw [if_neg h36, if_neg h0]
      exact congrArg String.mk (base36loop_eq_digits n)

lemma alphabet36_length : alphabet36.length = 36 := rfl

lemma mem_alphabet36_of_mem_base36loop (n : Nat) (c : Char) (hc : c ∈ base36loop n) :
    c ∈ alphabet36 := by
  induction n using Nat.strong_induction_on with
  | _ n ih =>
    rw [base36loop] at hc
    by_cases h : n = 0
    · simp [h] at hc
    · rw [dif_neg h] at hc
      rcases List.mem_append.1 hc with h1 | h1
      · exact ih (n / 36) (Nat.div_lt_self (Nat.pos_of_ne_zero h) (by norm_num)) h1
      · have hlt : n % 36 < alphabet36.length := by
          rw [alphabet36_length]; exact Nat.mod_lt _ (by norm_num)
        rw [List.mem_singleton.1 h1, List.getD_eq_getElem _ _ hlt]
        exact List.getElem_mem hlt

lemma mem_alphabet36_of_mem_base36encode (n : Nat) (c : Char)
    (hc : c ∈ (base36encode n).data) : c ∈ alphabet36 := by
  unfold base36encode at hc
  by_cases h36 : n < 36
  · rw [if_pos h36] at hc
    have hlt : n < alphabet36.length := by rw [alphabet36_length]; exact h36
    have : c = alphabet36.getD n '0' := by
      simpa [String.singleton] using hc
    rw [this, List.getD_eq_getElem _ _ hlt]
    exact List.getElem_mem hlt
  · rw [if_neg h36] at hc
    exact mem_alphabet36_of_mem_base36loop n c hc

lemma alphabet36_charset :
    ∀ c ∈ alphabet36, (48 ≤ c.toNat ∧ c.toNat ≤ 57) ∨ (97 ≤ c.toNat ∧ c.toNat ≤ 122) := by
  decide

lemma base36encode_ne_empty (n : Nat) : base36encode n ≠ "" := by
  unfold base36encode
  by_cases h36 : n < 36
  · rw [if_pos h36]
    intro h
    exact List.cons_ne_nil _ _ (congrArg String.data h)
  · rw [if_neg h36]
    intro h
    have hd : base36loop n = [] := congrArg String.data h
    rw [base36loop, dif_neg (by omega : ¬ n = 0)] at hd
    exact List.append_ne_nil_of_right_ne_nil _ (List.cons_ne_nil _ _) hd

/-! ## Claim theorems: key derivation -/

/-- C1: for every string `s`, the derived identifier (`alphanumeric(s)[0:6]`) equals the
spec's description: SHA-1 of the UTF-8 encoding of `s`, read as a big-endian unsigned
integer, encoded in base 36 with alphabet 0-9 a-z most significant digit first, first
6 characters (the whole unpadded encoding when shorter). -/
theorem C1_derived_key_algorithm (s : String) : derivedKey s = specDerive s := by
  unfold derivedKey specDerive alphanumeric
  rw [base36encode_eq_specBase36]

/-- C7: every derived key has length at most 6, and all of its characters are decimal
digits or lowercase letters a-z (the base-36 alphabet). -/
theorem C7_key_length_charset (s : String) :
    (derivedKey s).length ≤ 6 ∧
      ∀ c ∈ (derivedKey s).data, c ∈ alphabet36 ∧
        ((48 ≤ c.toNat ∧ c.toNat ≤ 57) ∨ (97 ≤ c.toNat ∧ c.toNat ≤ 122)) := by
  constructor
  · show ((alphanumeric s).data.take 6).length ≤ 6
    simp
  · intro c hc
    have hmem : c ∈ (alphanumeric s).data := List.mem_of_mem_take hc
    have halpha : c ∈ alphabet36 := mem_alphabet36_of_mem_base36encode _ c hmem
    exact ⟨halpha, alphabet36_charset c halpha⟩

/-- C9: key derivation is total: the integer read from the SHA-1 digest is a
nonnegative int, `base36encode` takes neither `TypeError` branch on it and returns
exactly `alphanumeric`'s value, and the result is a non-empty string. -/
theorem C9_derivation_total (s : String) :
    (0 : Int) ≤ (fromBytesBE (sha1 (utf8Bytes s)) : Int) ∧
      base36encodeDyn (.int (fromBytesBE (sha1 (utf8Bytes s)))) = .ok (alphanumeric s) ∧
      alphanumeric s ≠ "" := by
  refine ⟨Int.ofNat_nonneg _, ?_, base36encode_ne_empty _⟩
  unfold alphanumeric
  simp only [base36encodeDyn]
  rw [if_neg (Int.not_lt.2 (Int.ofNat_nonneg _))]
  simp

/-- C10: reconciliation compares only the first `min` positions of the computed and
recorded period lists (`zip` truncation): truncating each list to the other's length
does not change the verdict, so excess recorded periods are silently ignored. -/
theorem C10_zip_truncation (c t : List Period) :
    checkPeriods c t = checkPeriods (c.take t.length) (t.take c.length) ∧
      (c.length ≤ t.length → checkPeriods c t = checkPeriods c (t.take c.length)) := by
  have main : ∀ (c t : List Period),
      checkPeriods c t = checkPeriods (c.take t.length) (t.take c.length) := by
    intro c
    induction c with
    | nil => intro t; cases t <;> rfl
    | cons p ps ih =>
      intro t
      cases t with
      | nil => rfl
      | cons q qs =>
        show checkPeriods (p :: ps) (q :: qs) =
          checkPeriods (p :: ps.take qs.length) (q :: qs.take ps.length)
        rw [checkPeriods, checkPeriods, ih qs]
  refine ⟨main c t, fun h => ?_⟩
  have := main c t
  rwa [List.take_of_length_le h] at this

lemma computePeriods_ok (model : HazardResource) (sid : String) :
    ∀ (ys : List Nat) (ps : List Period), computePeriods model sid ys = some ps →
      ps = ys.map fun y => Period.mk y ((computeMapId model sid y).getD "") := by
  intro ys
  induction ys with
  | nil =>
    intro ps h
    simp only [computePeriods, Option.some.injEq] at h
    simp [← h]
  | cons y rest ih =>
    intro ps h
    unfold computePeriods at h
    split at h
    · rename_i i ps' hi hrest
      rw [Option.some.injEq] at h
      rw [← h, List.map_cons, ih ps' hrest, hi]
      rfl
    · exact absurd h (by simp)

lemma resolveScenarioSpec_ok (model : HazardResource) (scen scen' : ScenarioSpec)
    (h : resolveScenarioSpec model scen = .ok scen') :
    scen' = { scen with periods := some (freshPeriods model scen) } := by
  unfold resolveScenarioSpec at h
  split at h
  · exact absurd h (by simp)
  · rename_i computed hcp
    have hc := computePeriods_ok model scen.id scen.years computed hcp
    have hc' : computed = freshPeriods model scen := hc
    split at h
    · rw [Except.ok.injEq] at h
      rw [← h, hc']
    · split at h
      · rw [Except.ok.injEq] at h
        rw [← h, hc']
      · exact absurd h (by simp)

/-! ## Claim theorems: period resolution -/

/-- C4: when a scenario resolves successfully, its period list is replaced by exactly
one freshly computed (year, key) pair per declared year, in declared order; any
pre-recorded periods are discarded. -/
theorem C4_period_list_shape (model : HazardResource) (scen scen' : ScenarioSpec)
    (h : resolveScenarioSpec model scen = .ok scen') :
    ∃ ps, scen'.periods = some ps ∧
      ps = scen.years.map (fun y => Period.mk y ((computeMapId model scen.id y).getD "")) ∧
      ps.map Period.year = scen.years ∧
      ps.length = scen.years.length := by
  obtain rfl := resolveScenarioSpec_ok model scen scen' h
  refine ⟨freshPeriods model scen, rfl, rfl, ?_, by simp [freshPeriods]⟩
  simp [freshPeriods, List.map_map, Function.comp_def]

set_option maxRecDepth 8192 in
/-- Witness for C4: a resource without a map specification and a two-year scenario
whose stale pre-recorded periods are discarded and replaced. -/
theorem C4_period_list_shape_witness :
    ∃ ps, staleScenResolved.periods = some ps ∧
      ps = staleScen.years.map (fun y =>
        Period.mk y ((computeMapId maplessModel staleScen.id y).getD "")) ∧
      ps.map Period.year = staleScen.years ∧
      ps.length = staleScen.years.length :=
  C4_period_list_shape maplessModel staleScen staleScenResolved rfl

/-- C8: when the resource has no map specification, or its map carries an empty
array-name template, every resolved period carries the empty string as its key. -/
theorem C8_empty_key_without_map (model : HazardResource) (scen scen' : ScenarioSpec)
    (hmap : model.map = none ∨ ∃ m, model.map = some m ∧ m.array_name = "")
    (h : resolveScenarioSpec model scen = .ok scen') :
    ∀ p ∈ (scen'.periods.getD []), p.map_id = "" := by
  have hid : ∀ y, computeMapId model scen.id y = some "" := by
    intro y
    unfold computeMapId
    rcases hmap with h1 | ⟨m, h1, h2⟩
    · rw [h1]
    · rw [h1]; simp [h2]
  obtain rfl := resolveScenarioSpec_ok model scen scen' h
  intro p hp
  simp only [Option.getD_some] at hp
  rcases List.mem_map.1 hp with ⟨y, -, hy⟩
  rw [← hy, hid y]
  rfl

set_option maxRecDepth 8192 in
/-- Witness for C8: a resource carrying a map specification with an empty array-name
template resolves to empty keys. -/
theorem C8_empty_key_without_map_witness :
    (Period.mk 2030 "").map_id = "" :=
  C8_empty_key_without_map emptyTemplateModel emptyKeyScen emptyKeyScenResolved
    (Or.inr ⟨{ colormap := "flare", array_name := "", source := none }, rfl, rfl⟩)
    rfl ⟨2030, ""⟩ (by decide)

/-- C2: a resource with model id 000000000WATCH whose map template is
`inunriver_.._rp(05d)` resolves the historical scenario for year 1980 to exactly the
key `alphanumeric("inunriver_historical_000000000WATCH_1980_rp01000")[0:6]`: the
probe value 1000 is rendered zero-padded as 01000. -/
theorem C2_watch_roundtrip (model : HazardResource) (m : MapInfo) (scen scen' : ScenarioSpec)
    (hid : model.id = "000000000WATCH") (hm : model.map = some m)
    (ha : m.array_name = inunriverTemplate)
    (hs : scen.id = "historical") (hy : scen.years = [1980])
    (h : resolveScenarioSpec model scen = .ok scen') :
    scen'.periods = some [⟨1980,
      ⟨(alphanumeric "inunriver_historical_000000000WATCH_1980_rp01000").data.take 6⟩⟩] := by
  have hfmt : formatString inunriverTemplate (formatEnv "historical" 1980 "000000000WATCH") =
      some "inunriver_historical_000000000WATCH_1980_rp01000" := by decide
  have hkey : computeMapId model "historical" 1980 =
      some (derivedKey "inunriver_historical_000000000WATCH_1980_rp01000") := by
    unfold computeMapId
    rw [hm]
    simp only [ha]
    rw [if_pos (by decide), hid, hfmt]
    rfl
  obtain rfl := resolveScenarioSpec_ok model scen scen' h
  show some (freshPeriods model scen) = _
  unfold freshPeriods
  rw [hy, hs, List.map_cons, List.map_nil, hkey]
  rfl

set_option maxRecDepth 8192 in
lemma watch_resolves :
    resolveScenarioSpec watchModel watchScen = .ok watchResolvedScen := by
  have hfmt : formatString inunriverTemplate (formatEnv "historical" 1980 "000000000WATCH") =
      some "inunriver_historical_000000000WATCH_1980_rp01000" := by decide
  have hkey : computeMapId watchModel "historical" 1980 =
      some (derivedKey "inunriver_historical_000000000WATCH_1980_rp01000") := by
    unfold computeMapId watchModel
    simp only
    rw [if_pos (by decide), hfmt]
    rfl
  have hcp : computePeriods watchModel "historical" [1980] =
      some [⟨1980, derivedKey "inunriver_historical_000000000WATCH_1980_rp01000"⟩] := by
    unfold computePeriods
    rw [hkey]
    rfl
  unfold resolveScenarioSpec
  rw [show watchScen.id = "historical" from rfl, show watchScen.years = [1980] from rfl, hcp]
  rfl

/-- Witness for C2: a concrete WATCH resource resolving its historical scenario. -/
theorem C2_watch_roundtrip_witness :
    watchResolvedScen.periods = some [⟨1980,
      ⟨(alphanumeric "inunriver_historical_000000000WATCH_1980_rp01000").data.take 6⟩⟩] :=
  C2_watch_roundtrip watchModel
    { colormap := "flare", array_name := inunriverTemplate, source := some "mapbox" }
    watchScen watchResolvedScen rfl rfl rfl rfl rfl watch_resolves

/-- Witness for C10 at concrete inputs: one matching computed period against two
recorded periods; the excess recorded period is ignored. -/
theorem C10_zip_truncation_witness :
    checkPeriods [⟨1980, "gw4vgq"⟩] [⟨1980, "gw4vgq"⟩, ⟨1990, "zzzzzz"⟩] =
        checkPeriods (([⟨1980, "gw4vgq"⟩] : List Period).take 2)
          (([⟨1980, "gw4vgq"⟩, ⟨1990, "zzzzzz"⟩] : List Period).take 1) ∧
      (([⟨1980, "gw4vgq"⟩] : List Period).length ≤
          ([⟨1980, "gw4vgq"⟩, ⟨1990, "zzzzzz"⟩] : List Period).length →
        checkPeriods [⟨1980, "gw4vgq"⟩] [⟨1980, "gw4vgq"⟩, ⟨1990, "zzzzzz"⟩] =
          checkPeriods [⟨1980, "gw4vgq"⟩]
            (([⟨1980, "gw4vgq"⟩, ⟨1990, "zzzzzz"⟩] : List Period).take 1)) :=
  C10_zip_truncation [⟨1980, "gw4vgq"⟩] [⟨1980, "gw4vgq"⟩, ⟨1990, "zzzzzz"⟩]

/-! ## Claim theorems: reconciliation -/

lemma checkPeriods_ok_iff : ∀ (c t : List Period),
    checkPeriods c t = .ok () ↔ ∀ pr ∈ c.zip t, pr.1.map_id = pr.2.map_id := by
  intro c
  induction c with
  | nil => intro t; cases t <;> simp [checkPeriods]
  | cons p ps ih =>
    intro t
    cases t with
    | nil => simp [checkPeriods]
    | cons q qs =>
      show (if p.map_id ≠ q.map_id then _ else checkPeriods ps qs) = _ ↔ _
      by_cases hpq : p.map_id = q.map_id
      · rw [if_neg (by simp [hpq]), ih qs, List.zip_cons_cons]
        simp [hpq]
      · rw [if_pos hpq]
        constructor
        · intro h; exact absurd h (by simp)
        · intro h; exact absurd (h (p, q) (by rw [List.zip_cons_cons]; exact List.mem_cons_self _ _)) hpq

lemma firstMismatch_eq_none (c t : List Period)
    (h : ∀ pr ∈ c.zip t, pr.1.map_id = pr.2.map_id) : firstMismatch c t = none := by
  unfold firstMismatch
  rw [List.find?_eq_none.2 (by intro pr hpr; simpa using h pr hpr)]
  rfl

lemma checkPeriods_error_iff : ∀ (c t : List Period) (msg : String),
    checkPeriods c t = .error msg ↔
      ∃ ce : String × String, firstMismatch c t = some ce ∧ msg = mismatchMsg ce.1 ce.2 := by
  intro c
  induction c with
  | nil => intro t msg; cases t <;> simp [checkPeriods, firstMismatch]
  | cons p ps ih =>
    intro t msg
    cases t with
    | nil => simp [checkPeriods, firstMismatch]
    | cons q qs =>
      show (if p.map_id ≠ q.map_id then Except.error (mismatchMsg p.map_id q.map_id)
          else checkPeriods ps qs) = _ ↔ _
      by_cases hpq : p.map_id = q.map_id
      · rw [if_neg (by simp [hpq]), ih qs msg]
        unfold firstMismatch
        rw [List.zip_cons_cons, List.find?_cons_of_neg _ (by simp [hpq])]
      · rw [if_pos hpq]
        unfold firstMismatch
        rw [List.zip_cons_cons, List.find?_cons_of_pos _ (by simpa using hpq)]
        simp [eq_comm]

lemma resolveScenarios_ne_ok (model : HazardResource) :
    ∀ (l : List ScenarioSpec) (s : ScenarioSpec), s ∈ l →
      (∀ s', resolveScenarioSpec model s ≠ .ok s') →
      ∀ out, resolveScenarios model l ≠ .ok out := by
  intro l
  induction l with
  | nil => intro s hs; exact absurd hs (List.not_mem_nil s)
  | cons a rest ih =>
    intro s hs hbad out
    unfold resolveScenarios
    rcases List.mem_cons.1 hs with rfl | hs'
    · cases ha : resolveScenarioSpec model s with
      | error e => simp
      | ok s' => exact absurd ha (hbad s')
    · cases ha : resolveScenarioSpec model a with
      | error e => simp
      | ok a' =>
        cases hrest : resolveScenarios model rest with
        | error e => simp
        | ok rest' => exact absurd hrest (ih s hs' hbad rest')

lemma resolveResource_ne_ok (model : HazardResource) (scen : ScenarioSpec)
    (hs : scen ∈ model.scenarios)
    (hbad : ∀ s', resolveScenarioSpec model scen ≠ .ok s') :
    ∀ r', resolveResource model ≠ .ok r' := by
  intro r'
  unfold resolveResource
  cases h : resolveScenarios model model.scenarios with
  | error e => simp
  | ok scens => exact absurd h (resolveScenarios_ne_ok model model.scenarios scen hs hbad scens)

lemma resolveAll_ne_ok :
    ∀ (l : List HazardResource) (m : HazardResource), m ∈ l →
      (∀ r', resolveResource m ≠ .ok r') →
      ∀ out, resolveAll l ≠ .ok out := by
  intro l
  induction l with
  | nil => intro m hm; exact absurd hm (List.not_mem_nil m)
  | cons a rest ih =>
    intro m hm hbad out
    unfold resolveAll
    rcases List.mem_cons.1 hm with rfl | hm'
    · cases ha : resolveResource m with
      | error e => simp
      | ok m' => exact absurd ha (hbad m')
    · cases ha : resolveResource a with
      | error e => simp
      | ok a' =>
        cases hrest : resolveAll rest with
        | error e => simp
        | ok rest' => exact absurd hrest (ih m hm' hbad rest')

/-- C3: for a scenario with pre-recorded periods, the recorded keys are compared
position by position (in year order) against the computed ones: the load of the
scenario succeeds and yields the freshly computed list exactly when every compared
pair matches; the first mismatching pair produces an error naming the computed and
the recorded key, and any such error makes the whole `to_resources` load fail, so
no resource list is returned. -/
theorem C3_reconciliation (model : HazardResource) (scen : ScenarioSpec)
    (test computed : List Period)
    (hp : scen.periods = some test)
    (hc : computePeriods model scen.id scen.years = some computed) :
    (resolveScenarioSpec model scen = .ok { scen with periods := some computed } ↔
      ∀ pr ∈ computed.zip test, pr.1.map_id = pr.2.map_id) ∧
    (∀ ce : String × String, firstMismatch computed test = some ce →
      resolveScenarioSpec model scen = .error (mismatchMsg ce.1 ce.2)) ∧
    (∀ e, resolveScenarioSpec model scen = .error e →
      ∃ ce : String × String, firstMismatch computed test = some ce ∧
        e = mismatchMsg ce.1 ce.2) ∧
    (∀ e, resolveScenarioSpec model scen = .error e → scen ∈ model.scenarios →
      ∀ (models out : List HazardResource),
        model ∈ (models.map HazardResource.expand).flatten →
        toResources models ≠ .ok out) := by
  have hstep : resolveScenarioSpec model scen =
      (match checkPeriods computed test with
        | .ok _ => .ok { scen with periods := some computed }
        | .error e => .error e) := by
    unfold resolveScenarioSpec
    rw [hc, hp]
  cases hchk : checkPeriods computed test with
  | ok u =>
    cases u
    have hres : resolveScenarioSpec model scen = .ok { scen with periods := some computed } :=
      hstep.trans (by rw [hchk])
    have hall := (checkPeriods_ok_iff computed test).1 hchk
    refine ⟨⟨fun _ => hall, fun _ => hres⟩, ?_, ?_, ?_⟩
    · intro ce hce
      rw [firstMismatch_eq_none computed test hall] at hce
      exact absurd hce (by simp)
    · intro e he
      rw [hres] at he
      exact absurd he (by simp)
    · intro e he
      rw [hres] at he
      exact absurd he (by simp)
  | error e0 =>
    have hres : resolveScenarioSpec model scen = .error e0 :=
      hstep.trans (by rw [hchk])
    obtain ⟨ce, hce, he0⟩ := (checkPeriods_error_iff computed test e0).1 hchk
    constructor
    · constructor
      · intro h
        rw [hres] at h
        exact absurd h (by simp)
      · intro hall
        exact absurd ((checkPeriods_ok_iff computed test).2 hall) (by rw [hchk]; simp)
    refine ⟨?_, ?_, ?_⟩
    · intro ce' hce'
      rw [hce] at hce'
      rw [Option.some.injEq] at hce'
      rw [← hce', hres, he0]
    · intro e he
      rw [hres, Except.error.injEq] at he
      exact ⟨ce, hce, by rw [← he, he0]⟩
    · intro e he hs models out hmem
      have hbad : ∀ s', resolveScenarioSpec model scen ≠ .ok s' := by
        intro s' h'
        rw [hres] at h'
        exact absurd h' (by simp)
      exact resolveAll_ne_ok _ model hmem (resolveResource_ne_ok model scen hs hbad) out

/-- Witness for C3: a scenario whose single recorded key matches the computed one
loads successfully. -/
theorem C3_reconciliation_witness :
    resolveScenarioSpec maplessModel matchingScen =
      .ok { matchingScen with periods := some [⟨1980, ""⟩] } := by
  have h := C3_reconciliation maplessModel matchingScen [⟨1980, ""⟩] [⟨1980, ""⟩] rfl rfl
  exact h.1.2 (by decide)

/-! ## Properties of the inventory index -/

lemma find?_map_dictSet_self {K V : Type} [DecidableEq K] (d : List (K × V)) (k : K) (v : V)
    (hmem : ∃ p ∈ d, p.1 = k) :
    ((d.map fun p => if p.1 = k then (k, v) else p).find? fun q => decide (q.1 = k)) =
      some (k, v) := by
  induction d with
  | nil => simp at hmem
  | cons a rest ih =>
    rw [List.map_cons]
    by_cases ha : a.1 = k
    · rw [if_pos ha, List.find?_cons_of_pos _ (by simp)]
    · rw [if_neg ha, List.find?_cons_of_neg _ (by simpa using ha)]
      apply ih
      rcases hmem with ⟨p, hp, hpk⟩
      rcases List.mem_cons.1 hp with rfl | hp'
      · exact absurd hpk ha
      · exact ⟨p, hp', hpk⟩

lemma find?_map_dictSet_other {K V : Type} [DecidableEq K] (d : List (K × V)) (k k' : K)
    (v : V) (hne : k' ≠ k) :
    ((d.map fun p => if p.1 = k then (k, v) else p).find? fun q => decide (q.1 = k')) =
      (d.find? fun q => decide (q.1 = k')) := by
  induction d with
  | nil => rfl
  | cons a rest ih =>
    rw [List.map_cons]
    by_cases ha : a.1 = k
    · rw [if_pos ha,
        List.find?_cons_of_neg _ (by simp; exact fun h => hne h.symm),
        List.find?_cons_of_neg _ (by simp [ha]; exact fun h => hne h.symm)]
      exact ih
    · rw [if_neg ha]
      by_cases ha' : a.1 = k'
      · rw [List.find?_cons_of_pos _ (by simpa using ha'),
          List.find?_cons_of_pos _ (by simpa using ha')]
      · rw [List.find?_cons_of_neg _ (by simpa using ha'),
          List.find?_cons_of_neg _ (by simpa using ha')]
        exact ih

lemma dictGet?_dictSet {K V : Type} [DecidableEq K] (d : List (K × V)) (k k' : K) (v : V) :
    dictGet? (dictSet d k v) k' = if k' = k then some v else dictGet? d k' := by
  unfold dictGet? dictSet
  by_cases hmem : d.any fun p => decide (p.1 = k)
  · rw [if_pos hmem]
    have hex : ∃ p ∈ d, p.1 = k := by
      rcases List.any_eq_true.1 hmem with ⟨p, hp, hpk⟩
      exact ⟨p, hp, of_decide_eq_true hpk⟩
    by_cases hk : k' = k
    · subst hk
      rw [find?_map_dictSet_self d k' v hex, if_pos rfl]
      rfl
    · rw [find?_map_dictSet_other d k k' v hk, if_neg hk]
  · rw [if_neg hmem]
    rw [List.find?_append]
    by_cases hk : k' = k
    · subst hk
      have hnone : (d.find? fun q => decide (q.1 = k')) = none := by
        rw [List.find?_eq_none]
        intro p hp hdec
        exact hmem (List.any_eq_true.2 ⟨p, hp, hdec⟩)
      rw [hnone, List.find?_cons_of_pos _ (by simp), if_pos rfl]
      rfl
    · rw [List.find?_cons_of_neg _ (by simp; exact fun h => hk h.symm), if_neg hk]
      rw [show (List.find? (fun q => decide (q.1 = k')) ([] : List (K × V))) = none from rfl]
      rw [Option.or_none]

lemma byKey_step_self (inv : Inventory) (r : HazardResource) :
    (inventoryStep inv r).byKey r.key = some r := by
  show dictGet? (dictSet inv.resources r.key r) r.key = some r
  rw [dictGet?_dictSet, if_pos rfl]

lemma byKey_step_other (inv : Inventory) (r : HazardResource) (k : String)
    (h : k ≠ r.key) : (inventoryStep inv r).byKey k = inv.byKey k := by
  show dictGet? (dictSet inv.resources r.key r) k = dictGet? inv.resources k
  rw [dictGet?_dictSet, if_neg h]

lemma byKey_foldl_preserve : ∀ (l : List HazardResource) (inv : Inventory) (k : String),
    (∀ r' ∈ l, r'.key ≠ k) → (l.foldl inventoryStep inv).byKey k = inv.byKey k := by
  intro l
  induction l with
  | nil => intro inv k _; rfl
  | cons a rest ih =>
    intro inv k h
    rw [List.foldl_cons,
      ih (inventoryStep inv a) k (fun r' hr' => h r' (List.mem_cons_of_mem a hr')),
      byKey_step_other inv a k (fun he => h a (List.mem_cons_self a rest) he.symm)]

/-! ## Claim theorems: the inventory index -/

/-- C5 counterexample: building the inventory from two resources with the same
composite key raises no error; the composite-key map silently keeps only the last
resource, so the duplicate is NOT treated as a data error. -/
theorem C5_counterexample :
    dupA.key = dupB.key ∧ dupA ≠ dupB ∧
    (Inventory.build [dupA, dupB]).byKey dupA.key = some dupB ∧
    (Inventory.build [dupA, dupB]).byKey dupA.key ≠ some dupA ∧
    (Inventory.build [dupA, dupB]).resources.length = 1 :=
  ⟨rfl, by decide, by decide, by decide, by decide⟩

/-- C5 amended: on duplicate composite keys `Inventory.__init__` silently lets the
last write win: after the build, the composite-key map holds the last resource
carrying the key. -/
theorem C5_amended_last_write_wins (pre post : List HazardResource) (r : HazardResource)
    (h : ∀ r' ∈ post, r'.key ≠ r.key) :
    (Inventory.build (pre ++ r :: post)).byKey r.key = some r := by
  unfold Inventory.build
  rw [List.foldl_append, List.foldl_cons,
    byKey_foldl_preserve post _ r.key h, byKey_step_self]

/-- Witness for the amended C5: the duplicate at the end of the list wins. -/
theorem C5_amended_last_write_wins_witness :
    (Inventory.build ([dupA] ++ dupB :: [])).byKey dupB.key = some dupB :=
  C5_amended_last_write_wins [dupA] [] dupB (by simp)

lemma byTypeId_step (inv : Inventory) (r : HazardResource) (p : String × String) :
    (inventoryStep inv r).byTypeId p =
      if p = (r.type, r.id) then inv.byTypeId p ++ [r] else inv.byTypeId p := by
  show (dictGet? (dictSet inv.resources_by_type_id (r.type, r.id)
      ((dictGet? inv.resources_by_type_id (r.type, r.id)).getD [] ++ [r])) p).getD [] = _
  rw [dictGet?_dictSet]
  by_cases hp : p = (r.type, r.id)
  · rw [if_pos hp, if_pos hp, hp]
    rfl
  · rw [if_neg hp, if_neg hp]
    rfl

lemma byTypeId_foldl : ∀ (l : List HazardResource) (inv : Inventory) (p : String × String),
    (l.foldl inventoryStep inv).byTypeId p =
      inv.byTypeId p ++ l.filter fun r => decide ((r.type, r.id) = p) := by
  intro l
  induction l with
  | nil => intro inv p; simp
  | cons a rest ih =>
    intro inv p
    rw [List.foldl_cons, ih (inventoryStep inv a) p, byTypeId_step]
    by_cases hp : p = (a.type, a.id)
    · rw [if_pos hp, List.filter_cons_of_pos (by simp [hp])]
      simp
    · rw [if_neg hp, List.filter_cons_of_neg (by simp; exact fun h => hp h.symm)]

lemma byTypeId_build (rs : List HazardResource) (p : String × String) :
    (Inventory.build rs).byTypeId p = rs.filter fun r => decide ((r.type, r.id) = p) := by
  unfold Inventory.build
  rw [byTypeId_foldl]
  rfl

lemma count_eq_filter_length {α : Type} [DecidableEq α] (L : List α) (x : α) :
    L.count x = (L.filter fun y => decide (y = x)).length := by
  induction L with
  | nil => rfl
  | cons a l ih =>
    rw [List.count_cons]
    by_cases hax : a = x
    · rw [if_pos (by simpa using hax), List.filter_cons_of_pos (by simpa using hax), ih]
      simp [Nat.add_comm]
    · rw [if_neg (by simpa using hax), List.filter_cons_of_neg (by simpa using hax), ih]
      simp

lemma sum_filter_lengths {α : Type} [DecidableEq α] (L : List α) :
    (L.dedup.map fun x => (L.filter fun y => decide (y = x)).length).sum = L.length := by
  rw [List.map_congr_left fun x _ => (count_eq_filter_length L x).symm]
  exact List.sum_map_count_dedup_eq_length L

/-- C6: lookup by (type, id) after a build from N resources: each pair occurring among
the resources yields the non-empty sublist of matching resources in input order, the
lookup lengths over the distinct pairs sum to N, and an absent pair yields the empty
list rather than an error. -/
theorem C6_type_id_lookup (rs : List HazardResource) :
    (∀ p ∈ rs.map (fun r => (r.type, r.id)),
      (Inventory.build rs).byTypeId p ≠ [] ∧
      (Inventory.build rs).byTypeId p = rs.filter fun r => decide ((r.type, r.id) = p)) ∧
    (((rs.map fun r => (r.type, r.id)).dedup.map
        fun p => ((Inventory.build rs).byTypeId p).length).sum = rs.length) ∧
    (∀ p, p ∉ rs.map (fun r => (r.type, r.id)) → (Inventory.build rs).byTypeId p = []) := by
  refine ⟨?_, ?_, ?_⟩
  · intro p hp
    rw [byTypeId_build]
    rcases List.mem_map.1 hp with ⟨r, hr, rfl⟩
    exact ⟨List.ne_nil_of_mem (List.mem_filter.2 ⟨hr, by simp⟩), rfl⟩
  · have hmc : ∀ p ∈ (rs.map fun r => (r.type, r.id)).dedup,
        ((Inventory.build rs).byTypeId p).length =
        (((rs.map fun r => (r.type, r.id)).filter fun q => decide (q = p)).length) := by
      intro p _
      rw [byTypeId_build, List.filter_map, List.length_map]
      rfl
    rw [List.map_congr_left hmc, sum_filter_lengths, List.length_map]
  · intro p hp
    rw [byTypeId_build, List.filter_eq_nil_iff]
    intro r hr
    simp only [decide_eq_true_eq]
    intro he
    exact hp (List.mem_map.2 ⟨r, hr, he⟩)

/-- Witness for C6: with two providers of one pair and one other resource, lookup
returns both providers in input order, and an unknown pair returns the empty list. -/
theorem C6_type_id_lookup_witness :
    (Inventory.build [lkA, lkB, lkC]).byTypeId ("ChronicHeat", "days") = [lkA, lkB] ∧
    (Inventory.build [lkA, lkB, lkC]).byTypeId ("Wind", "gust") = [] := by
  have h := C6_type_id_lookup [lkA, lkB, lkC]
  exact ⟨((h.1 ("ChronicHeat", "days") (by decide)).2).trans (by decide),
    h.2.2 ("Wind", "gust") (by decide)⟩

/-- Witness for C7: the derived key of a concrete input satisfies the length and
charset bounds. -/
theorem C7_key_length_charset_witness :
    (derivedKey "abc").length ≤ 6 ∧
      ∀ c ∈ (derivedKey "abc").data, c ∈ alphabet36 ∧
        ((48 ≤ c.toNat ∧ c.toNat ≤ 57) ∨ (97 ≤ c.toNat ∧ c.toNat ≤ 122)) :=
  C7_key_length_charset "abc"

/-- Witness for C9: key derivation succeeds on the empty string. -/
theorem C9_derivation_total_witness :
    (0 : Int) ≤ (fromBytesBE (sha1 (utf8Bytes "")) : Int) ∧
      base36encodeDyn (.int (fromBytesBE (sha1 (utf8Bytes "")))) = .ok (alphanumeric "") ∧
      alphanumeric "" ≠ "" :=
  C9_derivation_total ""

end Physrisk

